/-
  Verification of the page-state concurrency core of the OrioleDB B-tree
  (src/btree/page_state.c) and the page-split location routine
  (src/btree/split.c), against the natural-language specification.

  The 64-bit page state word is manipulated through macros defined in a
  header that is not part of the covered sources; its layout is modelled
  from the specification (section 3, "Page state word (64 bits)"): the
  low bits hold the waiter-head slot index, then the lock bit, then the
  no-read bit, and the remaining high bits hold the change count.
  Concretely this development places the waiter head in bits 0..9, the
  lock bit at bit 10, the no-read bit at bit 11 and the change count in
  bits 12..63.  All state-word manipulations from the C sources are
  translated literally as 64-bit bitwise operations on Nat.
-/
import Mathlib

namespace OrioleDB

/-- Modelled from the spec: mask of the waiter-head ("list tail") field of
the state word, bits 0..9 (the constant lives in a header outside src/). -/
def PAGE_STATE_LIST_TAIL_MASK : Nat := 0x3FF

/-- Modelled from the spec: the reserved slot index meaning "no waiter". -/
def PAGE_STATE_INVALID_PROCNO : Nat := 0x3FF

/-- Modelled from the spec: the lock bit of the state word. -/
def PAGE_STATE_LOCKED_FLAG : Nat := 0x400

/-- Modelled from the spec: the no-read (reader-block) bit of the state word. -/
def PAGE_STATE_NO_READ_FLAG : Nat := 0x800

/-- Modelled from the spec: one unit of the change-count field (bit 12). -/
def PAGE_STATE_CHANGE_COUNT_ONE : Nat := 0x1000

/-- Modelled from the spec: mask of the change-count field, bits 12..63. -/
def PAGE_STATE_CHANGE_COUNT_MASK : Nat := 0xFFFFFFFFFFFFF000

/-- Size of the 64-bit machine word the page state lives in. -/
def WORD : Nat := 2 ^ 64

/-- Modelled from the spec: O_PAGE_STATE_IS_LOCKED tests the lock bit. -/
def O_PAGE_STATE_IS_LOCKED (s : Nat) : Bool := s &&& PAGE_STATE_LOCKED_FLAG != 0

/-- Modelled from the spec: O_PAGE_STATE_READ_IS_BLOCKED tests the no-read bit. -/
def O_PAGE_STATE_READ_IS_BLOCKED (s : Nat) : Bool := s &&& PAGE_STATE_NO_READ_FLAG != 0

/-- Modelled from the spec: O_PAGE_STATE_LOCK sets the lock bit, preserving
change count and waiter head. -/
def O_PAGE_STATE_LOCK (s : Nat) : Nat := s ||| PAGE_STATE_LOCKED_FLAG

/-- The waiter-head field of a state word. -/
def stateWaiterHead (s : Nat) : Nat := s &&& PAGE_STATE_LIST_TAIL_MASK

/-- The change-count field of a state word (its high 52 bits). -/
def stateChangeCount (s : Nat) : Nat := s >>> 12

/-! ### Arithmetic characterizations of the 64-bit operations -/

theorem and_mask_high (x k m : Nat) (hx : x < 2 ^ (k + m)) :
    x &&& ((2 ^ m - 1) <<< k) = 2 ^ k * (x / 2 ^ k) := by
  have h1 : 2 ^ k * (x / 2 ^ k) = (x >>> k) <<< k := by
    simp [Nat.shiftLeft_eq, Nat.shiftRight_eq_div_pow, Nat.mul_comm]
  rw [h1]
  apply Nat.eq_of_testBit_eq
  intro i
  simp only [Nat.testBit_and, Nat.testBit_shiftLeft, Nat.testBit_two_pow_sub_one,
    Nat.testBit_shiftRight]
  rcases Nat.lt_or_ge i k with h | h
  · have : ¬ (i ≥ k) := Nat.not_le_of_lt h
    simp [this]
  · have hik : i ≥ k := h
    have hsum : k + (i - k) = i := by omega
    rcases Nat.lt_or_ge i (k + m) with h2 | h2
    · have : i - k < m := by omega
      simp [hik, this, hsum]
    · have hxi : x.testBit i = false := by
        apply Nat.testBit_lt_two_pow
        calc x < 2 ^ (k + m) := hx
        _ ≤ 2 ^ i := Nat.pow_le_pow_right (by omega) h2
      simp [hik, hsum, hxi]

theorem or_low_eq_add (a t k : Nat) (ht : t < 2 ^ k) :
    (2 ^ k * a) ||| t = 2 ^ k * a + t :=
  (Nat.mul_add_lt_is_or ht a).symm

theorem and_single_bit (x k : Nat) :
    x &&& 2 ^ k = (if x / 2 ^ k % 2 = 1 then 2 ^ k else 0) := by
  rw [Nat.and_two_pow, Nat.testBit_to_div_mod]
  by_cases h : x / 2 ^ k % 2 = 1 <;> simp [h]

theorem stateWaiterHead_eq_mod (s : Nat) : stateWaiterHead s = s % 1024 := by
  have : PAGE_STATE_LIST_TAIL_MASK = 2 ^ 10 - 1 := by decide
  rw [stateWaiterHead, this, Nat.and_pow_two_sub_one_eq_mod]

theorem isLocked_iff (s : Nat) : O_PAGE_STATE_IS_LOCKED s = true ↔ s / 1024 % 2 = 1 := by
  have h1024 : PAGE_STATE_LOCKED_FLAG = 2 ^ 10 := by decide
  rw [O_PAGE_STATE_IS_LOCKED, h1024, and_single_bit]
  by_cases h : s / 2 ^ 10 % 2 = 1 <;> simp [h]

theorem readBlocked_iff (s : Nat) :
    O_PAGE_STATE_READ_IS_BLOCKED s = true ↔ s / 2048 % 2 = 1 := by
  have h2048 : PAGE_STATE_NO_READ_FLAG = 2 ^ 11 := by decide
  rw [O_PAGE_STATE_READ_IS_BLOCKED, h2048, and_single_bit]
  by_cases h : s / 2 ^ 11 % 2 = 1 <;> simp [h]

theorem and_cc_mask (s : Nat) (hs : s < WORD) :
    s &&& PAGE_STATE_CHANGE_COUNT_MASK = 4096 * (s / 4096) := by
  have hmask : PAGE_STATE_CHANGE_COUNT_MASK = (2 ^ 52 - 1) <<< 12 := by decide
  have hw : WORD = 2 ^ (12 + 52) := by norm_num [WORD]
  rw [hmask, and_mask_high s 12 52 (hw ▸ hs)]
  norm_num

theorem and_not_tail_mask (s : Nat) (hs : s < WORD) :
    s &&& 0xFFFFFFFFFFFFFC00 = 1024 * (s / 1024) := by
  have hmask : (0xFFFFFFFFFFFFFC00 : Nat) = (2 ^ 54 - 1) <<< 10 := by decide
  have hw : WORD = 2 ^ (10 + 54) := by norm_num [WORD]
  rw [hmask, and_mask_high s 10 54 (hw ▸ hs)]
  norm_num

theorem or2048_eq_add (h r : Nat) (hr : r < 2048) : 2048 * h ||| r = 2048 * h + r := by
  have := or_low_eq_add h r 11 (by omega)
  norm_num at this
  exact this

theorem or1024_eq_add (r : Nat) (hr : r < 1024) : (1024 : Nat) ||| r = 1024 + r := by
  have := or_low_eq_add 1 r 10 (by omega)
  norm_num at this
  exact this

theorem or_or_absorb (a b c : Nat) : a ||| b ||| c ||| b = a ||| b ||| c := by
  rw [Nat.or_assoc (a ||| b) c b, Nat.or_comm c b, ← Nat.or_assoc (a ||| b) b c,
    Nat.or_assoc a b b, Nat.or_self]

theorem or_locked_eq (s : Nat) :
    O_PAGE_STATE_LOCK s = if s / 1024 % 2 = 1 then s else s + 1024 := by
  have hmod : s % 1024 < 1024 := Nat.mod_lt _ (by omega)
  rw [O_PAGE_STATE_LOCK]
  have hflag : PAGE_STATE_LOCKED_FLAG = 1024 := by decide
  rw [hflag]
  by_cases hbit : s / 1024 % 2 = 1
  · have hs' : s = 2048 * (s / 2048) + (1024 + s % 1024) := by omega
    have step : s ||| 1024 = s := by
      conv_lhs => rw [hs', ← or2048_eq_add _ _ (by omega), ← or1024_eq_add _ hmod,
        ← Nat.or_assoc]
      rw [or_or_absorb, Nat.or_assoc, or1024_eq_add _ hmod,
        or2048_eq_add _ _ (by omega), ← hs']
    simp [hbit, step]
  · have hs' : s = 2048 * (s / 2048) + s % 1024 := by omega
    have step : s ||| 1024 = s + 1024 := by
      conv_lhs => rw [hs', ← or2048_eq_add _ _ (by omega)]
      rw [Nat.or_assoc, Nat.or_comm (s % 1024) 1024, or1024_eq_add _ hmod,
        or2048_eq_add _ _ (by omega)]
      omega
    simp [hbit, step]

theorem or4096_eq_add (h r : Nat) (hr : r < 4096) : 4096 * h ||| r = 4096 * h + r := by
  have := or_low_eq_add h r 12 (by omega)
  norm_num at this
  exact this

theorem or1024_gen_eq_add (h r : Nat) (hr : r < 1024) : 1024 * h ||| r = 1024 * h + r := by
  have := or_low_eq_add h r 10 (by omega)
  norm_num at this
  exact this

theorem or2048bit_eq_add (r : Nat) (hr : r < 2048) : (2048 : Nat) ||| r = 2048 + r := by
  have := or_low_eq_add 1 r 11 (by omega)
  norm_num at this
  exact this

theorem or_noread_eq (s : Nat) :
    s ||| PAGE_STATE_NO_READ_FLAG = if s / 2048 % 2 = 1 then s else s + 2048 := by
  have hmod : s % 2048 < 2048 := Nat.mod_lt _ (by omega)
  have hflag : PAGE_STATE_NO_READ_FLAG = 2048 := by decide
  rw [hflag]
  by_cases hbit : s / 2048 % 2 = 1
  · have hs' : s = 4096 * (s / 4096) + (2048 + s % 2048) := by omega
    have step : s ||| 2048 = s := by
      conv_lhs => rw [hs', ← or4096_eq_add _ _ (by omega), ← or2048bit_eq_add _ hmod,
        ← Nat.or_assoc]
      rw [or_or_absorb, Nat.or_assoc, or2048bit_eq_add _ hmod,
        or4096_eq_add _ _ (by omega), ← hs']
    simp [hbit, step]
  · have hs' : s = 4096 * (s / 4096) + s % 2048 := by omega
    have step : s ||| 2048 = s + 2048 := by
      conv_lhs => rw [hs', ← or4096_eq_add _ _ (by omega)]
      rw [Nat.or_assoc, Nat.or_comm (s % 2048) 2048, or2048bit_eq_add _ hmod,
        or4096_eq_add _ _ (by omega)]
      omega
    simp [hbit, step]

/-! ### Data model: waiter slots, page world, per-worker registries -/

/-- Modelled from the spec: the invalid in-memory block number
(OInvalidInMemoryBlkno / InvalidBlockNumber; the numeric value lives in
headers outside src/). -/
def OInvalidInMemoryBlkno : Nat := 0xFFFFFFFF

/-- OInMemoryBlknoIsValid from the headers; a block number is valid iff it is
not the invalid marker. -/
def OInMemoryBlknoIsValid (b : Nat) : Bool := b != OInvalidInMemoryBlkno

/-- BlockNumberIsValid (PostgreSQL); modelled with the same invalid marker. -/
def BlockNumberIsValid (b : Nat) : Bool := b != OInvalidInMemoryBlkno

/-- One per-worker waiter slot (LockerShmemState in page_state.c).  The
serialized tuple image itself is opaque to the properties proved here and is
represented by the tupleFlags field only. -/
structure LockerShmemState where
  next : Nat
  blkno : Nat
  pageChangeCount : Nat
  reloids : Nat
  reservedUndoSize : Nat
  tupleFlags : Nat
  waitExclusive : Bool
  pageWaiting : Bool
  inserted : Bool
  split : Bool
deriving DecidableEq

/-- The shared-memory world the page-state core manipulates: the per-page
64-bit state words, the per-page header change-count field, and the
per-worker waiter slots. -/
structure World where
  pageState : Nat → Nat
  pageChangeCountHdr : Nat → Nat
  slots : Nat → LockerShmemState

/-- Pointwise update of a function model of an array. -/
def updFun {α : Type} (f : Nat → α) (i : Nat) (v : α) : Nat → α :=
  fun j => if j = i then v else f j

/-- Update one waiter slot. -/
def updSlot (slots : Nat → LockerShmemState) (i : Nat)
    (f : LockerShmemState → LockerShmemState) : Nat → LockerShmemState :=
  fun j => if j = i then f (slots j) else slots j

/-- An entry of the per-worker locked-page registry (MyLockedPage). -/
structure MyLockedPage where
  blkno : Nat
  state : Nat
deriving DecidableEq

/-- my_locked_page_add: append at index numberOfMyLockedPages. -/
def my_locked_page_add (reg : List MyLockedPage) (blkno state : Nat) :
    List MyLockedPage :=
  reg ++ [{ blkno := blkno, state := state }]

/-- Default entry used to express list indexing totally. -/
def dfltLockedPage : MyLockedPage := { blkno := 0, state := 0 }

/-- my_locked_page_del: find the entry, move the last entry into its slot and
shrink the array by one; returns the remembered state snapshot. -/
def my_locked_page_del (reg : List MyLockedPage) (blkno : Nat) :
    List MyLockedPage × Nat :=
  match reg.findIdx? (fun e => e.blkno == blkno) with
  | none => (reg, 0)
  | some i =>
      ((reg.set i (reg.getD (reg.length - 1) dfltLockedPage)).dropLast,
       (reg.getD i dfltLockedPage).state)

/-- The bitwise complement (over 64 bits) of PAGE_STATE_LIST_TAIL_MASK, as it
appears in the C expression state AND NOT tail-mask. -/
def NOT_TAIL_MASK : Nat := 0xFFFFFFFFFFFFFC00

/-! ### State-word transitions of the locking primitives (page_state.c) -/

/-- The CAS body of lock_page_or_queue (page_state.c:135-168), executed on the
state word it observed.  In the sequential model the CAS succeeds at once;
the function returns the updated world and the observed previous state. -/
def lock_page_or_queue (w : World) (blkno pgprocnum : Nat) : World × Nat :=
  let state := w.pageState blkno
  if !O_PAGE_STATE_IS_LOCKED state then
    ({ w with pageState := updFun w.pageState blkno (O_PAGE_STATE_LOCK state) }, state)
  else
    let w1 := { w with
      slots := updSlot w.slots pgprocnum (fun ls =>
        { ls with next := state &&& PAGE_STATE_LIST_TAIL_MASK,
                  waitExclusive := true, pageWaiting := true }) }
    ({ w1 with
       pageState := updFun w1.pageState blkno ((state &&& NOT_TAIL_MASK) ||| pgprocnum) },
     state)

/-- The CAS body of read_enabled_or_queue (page_state.c:272-304). -/
def read_enabled_or_queue (w : World) (blkno pgprocnum : Nat) : World × Nat :=
  let state := w.pageState blkno
  if !O_PAGE_STATE_READ_IS_BLOCKED state then (w, state)
  else
    let w1 := { w with
      slots := updSlot w.slots pgprocnum (fun ls =>
        { ls with next := state &&& PAGE_STATE_LIST_TAIL_MASK,
                  waitExclusive := false, pageWaiting := true }) }
    ({ w1 with
       pageState := updFun w1.pageState blkno ((state &&& NOT_TAIL_MASK) ||| pgprocnum) },
     state)

/-- The CAS body of state_changed_or_queue (page_state.c:306-340). -/
def state_changed_or_queue (w : World) (blkno pgprocnum oldState : Nat) :
    World × Nat :=
  let state := w.pageState blkno
  if (state &&& PAGE_STATE_CHANGE_COUNT_MASK) !=
      (oldState &&& PAGE_STATE_CHANGE_COUNT_MASK) then (w, state)
  else
    let w1 := { w with
      slots := updSlot w.slots pgprocnum (fun ls =>
        { ls with next := state &&& PAGE_STATE_LIST_TAIL_MASK,
                  waitExclusive := false, pageWaiting := true }) }
    ({ w1 with
       pageState := updFun w1.pageState blkno ((state &&& NOT_TAIL_MASK) ||| pgprocnum) },
     state)

/-- try_lock_page (page_state.c:633-648): atomic fetch-or of the lock bit;
on success the page is recorded in the caller's locked-page registry. -/
def try_lock_page (w : World) (reg : List MyLockedPage) (blkno : Nat) :
    Bool × World × List MyLockedPage :=
  let state := w.pageState blkno
  let w2 := { w with
    pageState := updFun w.pageState blkno (state ||| PAGE_STATE_LOCKED_FLAG) }
  if O_PAGE_STATE_IS_LOCKED state then (false, w2, reg)
  else (true, w2, my_locked_page_add reg blkno (state ||| PAGE_STATE_LOCKED_FLAG))

/-- page_block_reads (page_state.c:673-686): atomic fetch-or of the no-read
bit on a page the caller holds; updates the registry snapshot. -/
def page_block_reads (w : World) (reg : List MyLockedPage) (blkno : Nat) :
    World × List MyLockedPage :=
  let state := w.pageState blkno
  let w2 := { w with
    pageState := updFun w.pageState blkno (state ||| PAGE_STATE_NO_READ_FLAG) }
  let reg2 := match reg.findIdx? (fun e => e.blkno == blkno) with
    | none => reg
    | some i => reg.set i { blkno := blkno, state := state ||| PAGE_STATE_NO_READ_FLAG }
  (w2, reg2)

/-- The new state word computed by unlock_page_internal's CAS
(page_state.c:1026-1031): clear the waiter head, lock bit and no-read bit in
one mask, add one change-count unit when the no-read bit was set (64-bit
wraparound), and splice in the new waiter head. -/
def unlock_page_internal_new_state (state newTail : Nat) : Nat :=
  let ns := state &&& PAGE_STATE_CHANGE_COUNT_MASK
  let ns2 := if O_PAGE_STATE_READ_IS_BLOCKED state
    then (ns + PAGE_STATE_CHANGE_COUNT_ONE) % WORD else ns
  ns2 ||| newTail

/-! ### unlock_page_internal: waiter selection and wakeup (page_state.c:923-1056) -/

/-- The wakeup-eligibility test of the unlock walk (page_state.c:954-956): a
waiter is moved to the wakeup list when it was already satisfied (inserted),
when it only waits for a change-count tick (not exclusive), or — under split
mode — when its target block number is still valid. -/
def waiter_wakeup_eligible (split : Bool) (ls : LockerShmemState) : Bool :=
  ls.inserted || !ls.waitExclusive || (split && BlockNumberIsValid ls.blkno)

/-- The waiter chain of a page: slot indices reached by following next
pointers from a head index until PAGE_STATE_INVALID_PROCNO, newest first.
A fuel argument bounds the traversal (the C code relies on the chain being
finite and acyclic). -/
def waiterChain (slots : Nat → LockerShmemState) : Nat → Nat → List Nat
  | 0, _ => []
  | fuel + 1, p =>
      if p = PAGE_STATE_INVALID_PROCNO then []
      else p :: waiterChain slots fuel (slots p).next

/-- The overwriting assignment pattern of the unlock walk: the variable
holding the candidate exclusive waiter is overwritten by every non-eligible
exclusive waiter encountered, so it ends up holding the last one. -/
def lastOf (l : List Nat) (ex : Option Nat) : Option Nat :=
  match l with
  | [] => ex
  | p :: rest => lastOf rest (some p)

/-- The waiter-list walk of unlock_page_internal (page_state.c:947-987),
embedded over the extracted chain (newest first).  Eligible waiters are
unlinked and pushed onto the wakeup list (whose head is the last pushed
entry, mirroring the wakeupTail pointer); non-eligible exclusive waiters
stay linked, and the walk remembers the most recent one in the exclusive
register, which is overwritten at each such waiter because wokeup_exclusive
stays false throughout the walk. -/
def unlock_walk (split : Bool) (slots : Nat → LockerShmemState) :
    List Nat → List Nat → List Nat → Option Nat →
    List Nat × List Nat × Option Nat
  | [], survivors, wakeupTail, exclusive => (survivors, wakeupTail, exclusive)
  | p :: rest, survivors, wakeupTail, exclusive =>
      if waiter_wakeup_eligible split (slots p) then
        unlock_walk split slots rest survivors (p :: wakeupTail) exclusive
      else
        unlock_walk split slots rest (survivors ++ [p]) wakeupTail (some p)

/-- The selection step of unlock_page_internal: run the walk, then (page_state.c:989-1008)
unlink the remembered exclusive waiter — the last surviving one — and push it
onto the wakeup list. -/
def unlock_select (split : Bool) (slots : Nat → LockerShmemState)
    (chain : List Nat) : List Nat × List Nat :=
  match unlock_walk split slots chain [] [] none with
  | (survivors, wakeupTail, none) => (survivors, wakeupTail)
  | (survivors, wakeupTail, some e) => (survivors.dropLast, e :: wakeupTail)

/-- Result of unlock_page_internal: the updated world, the updated registry,
the list of waiters whose pageWaiting was cleared and whose semaphores were
posted (in post order), and the state word installed by the CAS. -/
structure UnlockResult where
  world : World
  registry : List MyLockedPage
  wokenList : List Nat
  newState : Nat

/-- unlock_page_internal (page_state.c:923-1056): select the waiters to wake,
install the new state word in one CAS (clearing lock/no-read, ticking the
change count when no-read was set, splicing the surviving chain head), drop
the page from the caller's registry, then set the split flag on redirected
tuple waiters and clear pageWaiting before posting each semaphore. -/
def unlock_page_internal (w : World) (reg : List MyLockedPage)
    (blkno : Nat) (split : Bool) (fuel : Nat) : UnlockResult :=
  let state := w.pageState blkno
  let chain := waiterChain w.slots fuel (state &&& PAGE_STATE_LIST_TAIL_MASK)
  let sel := unlock_select split w.slots chain
  let newTail := match sel.1 with
    | [] => PAGE_STATE_INVALID_PROCNO
    | p :: _ => p
  let newState := unlock_page_internal_new_state state newTail
  let slots1 := sel.2.foldl (fun sl p =>
    updSlot sl p (fun ls =>
      if !ls.inserted && split && BlockNumberIsValid ls.blkno
      then { ls with split := true, pageWaiting := false }
      else { ls with pageWaiting := false })) w.slots
  { world := { w with
      pageState := updFun w.pageState blkno newState, slots := slots1 },
    registry := (my_locked_page_del reg blkno).1,
    wokenList := sel.2,
    newState := newState }

/-! ### Split completion: btree_split_mark_finished, btree_mark_incomplete_splits -/

/-- Modelled from the spec: the invalid right-link value (InvalidRightLink). -/
def InvalidRightLink : Nat := 0xFFFFFFFFFFFFFFFF

/-- The page fields btree_split_mark_finished manipulates: the broken-split
flag of each page, the right-link of each page header, and the left-neighbor
back-pointer of each page descriptor. -/
structure SplitPagesState where
  brokenSplitFlag : Nat → Bool
  rightLink : Nat → Nat
  leftBlkno : Nat → Nat

/-- One recorded invocation of btree_split_mark_finished. -/
structure SplitMarkCall where
  rightBlkno : Nat
  use_lock : Bool
  success : Bool
deriving DecidableEq

/-- btree_split_mark_finished (page_state.c:1159-1222), restricted to its
effect on the page fields.  The combination use_lock = false, success = false
violates the function's own assertion (page_state.c:1202, Assert(use_lock
or success)) and is modelled as failure.  On success the broken-split flag of
the right page is cleared and both links are severed; otherwise the
broken-split flag is set.  The page locking it performs is through
lock_page/page_block_reads/unlock_page, modelled separately. -/
def btree_split_mark_finished (sp : SplitPagesState) (rightBlkno : Nat)
    (use_lock success : Bool) : Option SplitPagesState :=
  let leftBlkno := sp.leftBlkno rightBlkno
  if !(use_lock || success) then none
  else if success then
    some { brokenSplitFlag := updFun sp.brokenSplitFlag rightBlkno false,
           rightLink := updFun sp.rightLink leftBlkno InvalidRightLink,
           leftBlkno := updFun sp.leftBlkno rightBlkno OInvalidInMemoryBlkno }
  else
    some { sp with brokenSplitFlag := updFun sp.brokenSplitFlag rightBlkno true }

/-- btree_mark_incomplete_splits (page_state.c:1141-1149): call
btree_split_mark_finished(blkno, use_lock = true, success = false) on every
registered in-progress right sibling, and clear the list.  The result also
records the sequence of calls made and the final list. -/
def btree_mark_incomplete_splits (sp : SplitPagesState) :
    List Nat → Option (SplitPagesState × List SplitMarkCall × List Nat)
  | [] => some (sp, [], [])
  | b :: rest =>
      match btree_split_mark_finished sp b true false with
      | none => none
      | some sp2 =>
          match btree_mark_incomplete_splits sp2 rest with
          | none => none
          | some (sp3, calls, remaining) =>
              some (sp3, { rightBlkno := b, use_lock := true, success := false } :: calls,
                    remaining)

/-! ### release_all_page_locks (page_state.c:1085-1092) -/

/-- release_all_page_locks: while the registry is non-empty, unlock the page
recorded in slot 0.  Each unlock removes its entry through
my_locked_page_del, which moves the last entry into the freed slot.  The
result is the sequence of block numbers in the order their pages were
unlocked.  (The state-word effect of each unlock is unlock_page_internal,
modelled above; the property at issue is the drain order.) -/
def release_all_page_locks : Nat → List MyLockedPage → List Nat
  | 0, _ => []
  | _ + 1, [] => []
  | fuel + 1, e :: rest =>
      e.blkno :: release_all_page_locks fuel (my_locked_page_del (e :: rest) e.blkno).1

/-! ### btree_page_split_location (split.c:190-267) -/

/-- Modelled from the spec: MAXALIGN rounds a size up to 8-byte alignment. -/
def MAXALIGN (n : Nat) : Nat := (n + 7) / 8 * 8

/-- ORIOLEDB_BLCKSZ: pages are 8192-byte slabs (spec section 3). -/
def ORIOLEDB_BLCKSZ : Nat := 8192

/-- Modelled from the spec: sizeof(LocationIndex), a 16-bit location. -/
def SizeOfLocationIndex : Nat := 2

/-- Modelled from the spec: sizeof(BTreePageHeader); the exact value only
shifts the initial space budgets and is immaterial to the bounds proved. -/
def SizeOfBTreePageHeader : Nat := 64

/-- The fields of BTreeSplitItems read by btree_page_split_location. -/
structure BTreeSplitItemsModel where
  itemSize : Nat → Nat
  itemsCount : Nat
  maxKeyLen : Nat
  hikeySize : Nat
  hikeysEnd : Nat

/-- The page-choice condition of the balancing loop (split.c:230-233):
prefer the left page when the right page is out of space, or when the left
page still has space and either the space-ratio comparison (when no target
location is given) or the target location says so.  The single float4
comparison (leftPageSpaceLeft * spaceRatio > rightPageSpaceLeft *
(1 - spaceRatio), used only when targetLocation is 0) is abstracted as the
oracle ratioChooseLeft; every theorem below holds for all oracles and
therefore covers the concrete floating-point computation. -/
def split_choose_left (targetLocation : Nat) (ratioChooseLeft : Int → Int → Bool)
    (minLeftPageItemsCount : Nat) (leftPageSpaceLeft rightPageSpaceLeft : Int) :
    Bool :=
  rightPageSpaceLeft ≤ 0 || (leftPageSpaceLeft > 0 &&
    (if targetLocation = 0 then ratioChooseLeft leftPageSpaceLeft rightPageSpaceLeft
     else decide (minLeftPageItemsCount < targetLocation)))

/-- The while loop of btree_page_split_location (split.c:220-257), with a
fuel argument bounding the iterations. -/
def btree_page_split_location_loop (items : BTreeSplitItemsModel)
    (targetLocation : Nat) (ratioChooseLeft : Int → Int → Bool) :
    Nat → Nat → Nat → Int → Int → Option Nat
  | 0, _, _, _, _ => none
  | fuel + 1, minLeftPageItemsCount, maxLeftPageItemsCount, leftPageSpaceLeft, rightPageSpaceLeft =>
      if minLeftPageItemsCount = maxLeftPageItemsCount then some minLeftPageItemsCount
      else if split_choose_left targetLocation ratioChooseLeft
          minLeftPageItemsCount leftPageSpaceLeft rightPageSpaceLeft then
        let leftSpace2 : Int := leftPageSpaceLeft -
          ((items.itemSize minLeftPageItemsCount : Int) +
            (MAXALIGN (SizeOfLocationIndex * (minLeftPageItemsCount + 1)) : Int) -
            (MAXALIGN (SizeOfLocationIndex * minLeftPageItemsCount) : Int))
        if leftSpace2 < 0 then
          btree_page_split_location_loop items targetLocation ratioChooseLeft fuel
            minLeftPageItemsCount maxLeftPageItemsCount leftSpace2 rightPageSpaceLeft
        else
          btree_page_split_location_loop items targetLocation ratioChooseLeft fuel
            (minLeftPageItemsCount + 1) maxLeftPageItemsCount leftSpace2 rightPageSpaceLeft
      else
        let rightSpace2 : Int := rightPageSpaceLeft -
          ((items.itemSize (maxLeftPageItemsCount - 1) : Int) +
            (MAXALIGN (SizeOfLocationIndex * (items.itemsCount - maxLeftPageItemsCount + 1)) : Int) -
            (MAXALIGN (SizeOfLocationIndex * (items.itemsCount - maxLeftPageItemsCount)) : Int))
        if rightSpace2 < 0 then
          btree_page_split_location_loop items targetLocation ratioChooseLeft fuel
            minLeftPageItemsCount maxLeftPageItemsCount leftPageSpaceLeft rightSpace2
        else
          btree_page_split_location_loop items targetLocation ratioChooseLeft fuel
            minLeftPageItemsCount (maxLeftPageItemsCount - 1) leftPageSpaceLeft rightSpace2

/-- btree_page_split_location (split.c:190-267): initial space budgets
(split.c:203-213), then the balancing loop; returns the number of items on
the left page.  The split_item out-parameter is an item lookup and does not
affect the returned count. -/
def btree_page_split_location (items : BTreeSplitItemsModel)
    (targetLocation : Nat) (ratioChooseLeft : Int → Int → Bool) (fuel : Nat) :
    Option Nat :=
  let leftPageSpaceLeft : Int :=
    (ORIOLEDB_BLCKSZ : Int) -
      (max items.hikeysEnd (MAXALIGN SizeOfBTreePageHeader + items.maxKeyLen) : Int) -
      ((items.itemSize 0 : Int) + (MAXALIGN SizeOfLocationIndex : Int))
  let rightPageSpaceLeft : Int :=
    (ORIOLEDB_BLCKSZ : Int) -
      (max items.hikeysEnd (MAXALIGN SizeOfBTreePageHeader + items.hikeySize) : Int) -
      ((items.itemSize (items.itemsCount - 1) : Int) + (MAXALIGN SizeOfLocationIndex : Int))
  btree_page_split_location_loop items targetLocation ratioChooseLeft fuel
    1 (items.itemsCount - 1) leftPageSpaceLeft rightPageSpaceLeft

/-! ### lock_page_with_tuple and its combined primitive (page_state.c:184-518) -/

/-- The digest of a consistent page image produced by the external
o_btree_read_page, as consumed by lock_page_or_queue_or_split_detect: the
state word stored in the image header, whether the image is rightmost,
whether this call's tuple compares greater or equal to the image's high key
(the opaque o_btree_cmp result), and the decoded right-link. -/
structure PageImg where
  stateWord : Nat
  rightmost : Bool
  tupleGeHikey : Bool
  rightlinkBlkno : Nat
  rightlinkChangeCount : Nat
deriving DecidableEq

/-- The external collaborators lock_page_with_tuple consumes: the page read
API, the tree descriptor fields (oids, undo type) and the reserved undo
size. -/
structure Env where
  readPage : Nat → Nat → Option PageImg
  undoTypeIsNone : Bool
  oids : Nat
  reservedUndoSize : Nat
  tupleFlags : Nat

inductive LockPageResult where
  | locked
  | queued
  | splitDetected
deriving DecidableEq

/-- Outcome of one call of the combined primitive: the result code, the
possibly re-targeted block number and change count, the state word observed
by the successful CAS, the updated world, and the page image buffer. -/
structure PrimResult where
  result : LockPageResult
  blkno : Nat
  pageChangeCount : Nat
  prevState : Nat
  world : World
  img : Option PageImg

/-- lock_page_or_queue_or_split_detect (page_state.c:184-266).  Each
iteration: re-read the page image when none is loaded or its change count
differs from the live state; on read failure return split-detected; when the
fresh image is not rightmost and the tuple is at or past its high key,
follow the right-link — re-targeting the caller's blkno/change count and
the worker slot — if it points into memory, otherwise return
split-detected; finally run the ordinary lock-or-enqueue body.  Fuel bounds
the retry loop; the CAS itself succeeds at once in the sequential model. -/
def lock_page_or_queue_or_split_detect (env : Env) (pgprocnum : Nat) :
    Nat → Nat → Nat → Option PageImg → World → Option PrimResult
  | 0, _, _, _, _ => none
  | fuel + 1, blkno, pageChangeCount, img, w =>
      let state := w.pageState blkno
      let needRead := match img with
        | none => true
        | some i => (state &&& PAGE_STATE_CHANGE_COUNT_MASK) !=
            (i.stateWord &&& PAGE_STATE_CHANGE_COUNT_MASK)
      if needRead then
        match env.readPage blkno pageChangeCount with
        | none =>
            some { result := .splitDetected, blkno := blkno,
                   pageChangeCount := pageChangeCount, prevState := state,
                   world := w, img := img }
        | some i =>
            if !i.rightmost && i.tupleGeHikey then
              if OInMemoryBlknoIsValid i.rightlinkBlkno then
                let w2 := { w with
                  slots := updSlot w.slots pgprocnum (fun ls =>
                    { ls with blkno := i.rightlinkBlkno,
                              pageChangeCount := i.rightlinkChangeCount }) }
                lock_page_or_queue_or_split_detect env pgprocnum fuel
                  i.rightlinkBlkno i.rightlinkChangeCount (some i) w2
              else
                some { result := .splitDetected, blkno := blkno,
                       pageChangeCount := pageChangeCount, prevState := state,
                       world := w, img := some i }
            else
              let le := lock_page_or_queue w blkno pgprocnum
              some { result := if O_PAGE_STATE_IS_LOCKED le.2 then .queued else .locked,
                     blkno := blkno, pageChangeCount := pageChangeCount,
                     prevState := le.2, world := le.1, img := some i }
      else
        let le := lock_page_or_queue w blkno pgprocnum
        some { result := if O_PAGE_STATE_IS_LOCKED le.2 then .queued else .locked,
               blkno := blkno, pageChangeCount := pageChangeCount,
               prevState := le.2, world := le.1, img := img }

/-- Result of lock_page_with_tuple: the returned boolean, the out-parameters
upwards/blkno/pageChangeCount, the updated shared state and registry, and
how many times giveup_reserved_undo_size was called. -/
structure LPWTResult where
  locked : Bool
  upwards : Bool
  blkno : Nat
  pageChangeCount : Nat
  world : World
  registry : List MyLockedPage
  giveupUndoCalls : Nat

/-- The slot writes lock_page_with_tuple performs before running the
combined primitive: publish the target page and generation and clear
split/inserted (page_state.c:414-417), and — once per call — serialize the
tuple, recording reloids, the reserved undo size and the tuple flags
(page_state.c:419-447). -/
def lpwt_publish (env : Env) (pgprocnum blkno pageChangeCount : Nat)
    (keySerialized : Bool) (w : World) : World :=
  let w1 := { w with
    slots := updSlot w.slots pgprocnum (fun ls =>
      { ls with blkno := blkno, pageChangeCount := pageChangeCount,
                split := false, inserted := false }) }
  if keySerialized then w1 else
    { w1 with
      slots := updSlot w1.slots pgprocnum (fun ls =>
        { ls with reloids := env.oids,
                  reservedUndoSize := if env.undoTypeIsNone then 0 else env.reservedUndoSize,
                  tupleFlags := env.tupleFlags }) }

/-- The while loop of lock_page_with_tuple (page_state.c:410-500).  Each
iteration: publish the target in the worker slot and clear split/inserted;
serialize the tuple once (recording reloids, reserved undo size and tuple
flags); run the combined primitive.  Locked: clear the slot's blkno, record
the page in the registry, return true.  Split detected: return false with
upwards set.  Queued: park; the wake oracle gives the foreign writes applied
to the slot before the wakeup (indexed by the park count).  If inserted was
set, clear the slot, give up the reserved undo once (unless the tree has no
undo log) and return false leaving upwards untouched; otherwise loop. -/
def lock_page_with_tuple_loop (env : Env) (pgprocnum : Nat)
    (wake : Nat → LockerShmemState → LockerShmemState) :
    Nat → Nat → Nat → Nat → Bool → Bool → Option PageImg → World →
    List MyLockedPage → Option LPWTResult
  | 0, _, _, _, _, _, _, _, _ => none
  | fuel + 1, parkCount, blkno, pageChangeCount, keySerialized, upwards, img, w, reg =>
      let w2 := lpwt_publish env pgprocnum blkno pageChangeCount keySerialized w
      match lock_page_or_queue_or_split_detect env pgprocnum fuel blkno
          pageChangeCount img w2 with
      | none => none
      | some r =>
          if r.result = .splitDetected then
            some { locked := false, upwards := true, blkno := r.blkno,
                   pageChangeCount := r.pageChangeCount, world := r.world,
                   registry := reg, giveupUndoCalls := 0 }
          else if r.result = .locked || !O_PAGE_STATE_IS_LOCKED r.prevState then
            let w3 := { r.world with
              slots := updSlot r.world.slots pgprocnum (fun ls =>
                { ls with blkno := OInvalidInMemoryBlkno }) }
            some { locked := true, upwards := upwards, blkno := r.blkno,
                   pageChangeCount := r.pageChangeCount, world := w3,
                   registry := my_locked_page_add reg r.blkno
                     (r.prevState ||| PAGE_STATE_LOCKED_FLAG),
                   giveupUndoCalls := 0 }
          else
            let w4 := { r.world with
              slots := updSlot r.world.slots pgprocnum (wake parkCount) }
            if (w4.slots pgprocnum).inserted then
              let w5 := { w4 with
                slots := updSlot w4.slots pgprocnum (fun ls =>
                  { ls with blkno := OInvalidInMemoryBlkno, inserted := false }) }
              some { locked := false, upwards := upwards, blkno := r.blkno,
                     pageChangeCount := r.pageChangeCount, world := w5,
                     registry := reg,
                     giveupUndoCalls := if env.undoTypeIsNone then 0 else 1 }
            else
              lock_page_with_tuple_loop env pgprocnum wake fuel (parkCount + 1)
                r.blkno r.pageChangeCount true upwards r.img w4 reg

/-- lock_page_with_tuple (page_state.c:394-518): enter the loop with no image
loaded and the tuple not yet serialized.  The upwards argument is the value
held by the caller's out-variable before the call. -/
def lock_page_with_tuple (env : Env) (pgprocnum : Nat)
    (wake : Nat → LockerShmemState → LockerShmemState) (fuel : Nat)
    (blkno pageChangeCount : Nat) (upwards : Bool) (w : World)
    (reg : List MyLockedPage) : Option LPWTResult :=
  lock_page_with_tuple_loop env pgprocnum wake fuel 0 blkno pageChangeCount
    false upwards none w reg

/-! ### get_waiters_with_tuples, wakeup_waiters_with_tuples (page_state.c:688-734) -/

/-- Modelled from the spec: the maximum-split-items cap
(BTREE_PAGE_MAX_SPLIT_ITEMS; the constant lives in a header outside src/ and
only bounds the list length). -/
def BTREE_PAGE_MAX_SPLIT_ITEMS : Nat := 256

/-- The chain walk of get_waiters_with_tuples (page_state.c:697-717):
collect slot indices whose waitExclusive, blkno, pageChangeCount and reloids
match the page being split, stopping once the cap is reached.  The cap
argument counts how many more matches may be collected. -/
def get_waiters_with_tuples_loop (oids : Nat) (w : World) (blkno : Nat) :
    Nat → Nat → Nat → List Nat
  | _, 0, _ => []
  | cap, fuel + 1, pgprocnum =>
      if pgprocnum = PAGE_STATE_INVALID_PROCNO then []
      else
        let ls := w.slots pgprocnum
        if ls.waitExclusive && ls.blkno == blkno &&
            ls.pageChangeCount == w.pageChangeCountHdr blkno &&
            ls.reloids == oids then
          if cap ≤ 1 then [pgprocnum]
          else pgprocnum :: get_waiters_with_tuples_loop oids w blkno (cap - 1) fuel ls.next
        else get_waiters_with_tuples_loop oids w blkno cap fuel ls.next

/-- get_waiters_with_tuples (page_state.c:688-720): walk from the waiter
head stored in the page's state word. -/
def get_waiters_with_tuples (oids : Nat) (w : World) (blkno fuel : Nat) :
    List Nat :=
  get_waiters_with_tuples_loop oids w blkno BTREE_PAGE_MAX_SPLIT_ITEMS fuel
    (w.pageState blkno &&& PAGE_STATE_LIST_TAIL_MASK)

/-- wakeup_waiters_with_tuples (page_state.c:722-734): set inserted on every
listed slot; the second component is the list of semaphore posts performed,
which is empty — the actual posts happen at the next release. -/
def wakeup_waiters_with_tuples (w : World) (procnums : List Nat) :
    World × List Nat :=
  (procnums.foldl (fun acc p =>
    { acc with slots := updSlot acc.slots p (fun ls => { ls with inserted := true }) }) w,
   [])

/-! ### Characterizations of the transition words -/

theorem stateChangeCount_eq (s : Nat) : stateChangeCount s = s / 4096 := by
  rw [stateChangeCount, Nat.shiftRight_eq_div_pow]

theorem isLocked_false_iff (s : Nat) :
    O_PAGE_STATE_IS_LOCKED s = false ↔ s / 1024 % 2 = 0 := by
  rw [← Bool.not_eq_true, isLocked_iff]
  omega

theorem readBlocked_false_iff (s : Nat) :
    O_PAGE_STATE_READ_IS_BLOCKED s = false ↔ s / 2048 % 2 = 0 := by
  rw [← Bool.not_eq_true, readBlocked_iff]
  omega

theorem unlock_new_state_eq (s t : Nat) (hs : s < WORD) (ht : t ≤ 1023) :
    unlock_page_internal_new_state s t =
      4096 * (if s / 2048 % 2 = 1 then (s / 4096 + 1) % 2 ^ 52 else s / 4096) + t := by
  have hone : PAGE_STATE_CHANGE_COUNT_ONE = 4096 := by decide
  have hword : WORD = 4096 * 2 ^ 52 := by norm_num [WORD]
  rw [unlock_page_internal_new_state]
  by_cases h : O_PAGE_STATE_READ_IS_BLOCKED s = true
  · have hbit : s / 2048 % 2 = 1 := (readBlocked_iff s).mp h
    simp only [h, if_true, hbit, and_cc_mask s hs, hone]
    have : 4096 * (s / 4096) + 4096 = 4096 * (s / 4096 + 1) := by ring
    rw [this, hword, Nat.mul_mod_mul_left, or4096_eq_add _ _ (by omega)]
  · have hb : O_PAGE_STATE_READ_IS_BLOCKED s = false := by
      cases hq : O_PAGE_STATE_READ_IS_BLOCKED s
      · rfl
      · exact absurd hq h
    have hbit : ¬ (s / 2048 % 2 = 1) := by
      have := (readBlocked_false_iff s).mp hb
      omega
    simp only [hb, Bool.false_eq_true, if_false, hbit, and_cc_mask s hs]
    rw [or4096_eq_add _ _ (by omega)]

theorem updFun_same {α : Type} (f : Nat → α) (i : Nat) (v : α) :
    updFun f i v i = v := by
  simp [updFun]

theorem updFun_other {α : Type} (f : Nat → α) (i j : Nat) (v : α) (h : j ≠ i) :
    updFun f i v j = f j := by
  simp [updFun, h]

theorem enqueue_word_eq (s p : Nat) (hs : s < WORD) (hp : p ≤ 1023) :
    (s &&& NOT_TAIL_MASK) ||| p = 1024 * (s / 1024) + p := by
  simp only [NOT_TAIL_MASK]
  rw [and_not_tail_mask s hs, or1024_gen_eq_add _ _ (by omega)]

/-- Claim C3: at unlock's successful CAS the new state word has the lock bit
and the no-read bit clear; its change count is the observed change count
plus one when the no-read bit was set (modulo the 52-bit field; exactly plus
one whenever the count does not wrap) and unchanged otherwise — all computed
from the single observed word installed by one CAS. -/
theorem C3_unlock_cas_transition (state newTail : Nat)
    (hs : state < WORD) (ht : newTail ≤ PAGE_STATE_LIST_TAIL_MASK) :
    O_PAGE_STATE_IS_LOCKED (unlock_page_internal_new_state state newTail) = false ∧
    O_PAGE_STATE_READ_IS_BLOCKED (unlock_page_internal_new_state state newTail) = false ∧
    (O_PAGE_STATE_READ_IS_BLOCKED state = true →
      stateChangeCount (unlock_page_internal_new_state state newTail) =
        (stateChangeCount state + 1) % 2 ^ 52) ∧
    (O_PAGE_STATE_READ_IS_BLOCKED state = true → stateChangeCount state + 1 < 2 ^ 52 →
      stateChangeCount (unlock_page_internal_new_state state newTail) =
        stateChangeCount state + 1) ∧
    (O_PAGE_STATE_READ_IS_BLOCKED state = false →
      stateChangeCount (unlock_page_internal_new_state state newTail) =
        stateChangeCount state) := by
  have ht' : newTail ≤ 1023 := by
    have hmask : PAGE_STATE_LIST_TAIL_MASK = 1023 := by decide
    omega
  have hw := unlock_new_state_eq state newTail hs ht'
  cases h : O_PAGE_STATE_READ_IS_BLOCKED state with
  | true =>
      have hbit := (readBlocked_iff state).mp h
      rw [if_pos hbit] at hw
      refine ⟨?_, ?_, ?_, ?_, ?_⟩
      · rw [isLocked_false_iff, hw]; omega
      · rw [readBlocked_false_iff, hw]; omega
      · intro _
        rw [stateChangeCount_eq, stateChangeCount_eq, hw]
        omega
      · intro _ hlt
        rw [stateChangeCount_eq, stateChangeCount_eq] at *
        rw [hw]
        omega
      · intro hfalse
        exact absurd hfalse (by decide)
  | false =>
      have hbit : ¬ (state / 2048 % 2 = 1) := by
        have := (readBlocked_false_iff state).mp h
        omega
      rw [if_neg hbit] at hw
      refine ⟨?_, ?_, ?_, ?_, ?_⟩
      · rw [isLocked_false_iff, hw]; omega
      · rw [readBlocked_false_iff, hw]; omega
      · intro htrue
        exact absurd htrue (by decide)
      · intro htrue
        exact absurd htrue (by decide)
      · intro _
        rw [stateChangeCount_eq, stateChangeCount_eq, hw]
        omega

/-- Witness for C3 at a concrete locked, read-blocked state word. -/
theorem C3_unlock_cas_transition_witness :
    (31747 : Nat) < WORD ∧ (5 : Nat) ≤ PAGE_STATE_LIST_TAIL_MASK ∧
    (O_PAGE_STATE_IS_LOCKED (unlock_page_internal_new_state 31747 5) = false ∧
     O_PAGE_STATE_READ_IS_BLOCKED (unlock_page_internal_new_state 31747 5) = false ∧
     (O_PAGE_STATE_READ_IS_BLOCKED 31747 = true →
       stateChangeCount (unlock_page_internal_new_state 31747 5) =
         (stateChangeCount 31747 + 1) % 2 ^ 52) ∧
     (O_PAGE_STATE_READ_IS_BLOCKED 31747 = true → stateChangeCount 31747 + 1 < 2 ^ 52 →
       stateChangeCount (unlock_page_internal_new_state 31747 5) =
         stateChangeCount 31747 + 1) ∧
     (O_PAGE_STATE_READ_IS_BLOCKED 31747 = false →
       stateChangeCount (unlock_page_internal_new_state 31747 5) =
         stateChangeCount 31747)) :=
  ⟨by decide, by decide, C3_unlock_cas_transition 31747 5 (by decide) (by decide)⟩

/-- Claim C7: try_lock_page succeeds — returning true and appending the page
to the caller's locked-page registry — exactly when the lock bit was clear
at its atomic fetch-or; when the bit was set it returns false, touches no
waiter slot (so it never enqueues), and leaves the page state word and the
registry unchanged. -/
theorem C7_try_lock_page (w : World) (reg : List MyLockedPage) (blkno : Nat) :
    ((try_lock_page w reg blkno).1 = true ↔
      O_PAGE_STATE_IS_LOCKED (w.pageState blkno) = false) ∧
    (O_PAGE_STATE_IS_LOCKED (w.pageState blkno) = false →
      (try_lock_page w reg blkno).2.2 =
        my_locked_page_add reg blkno (w.pageState blkno ||| PAGE_STATE_LOCKED_FLAG)) ∧
    (O_PAGE_STATE_IS_LOCKED (w.pageState blkno) = true →
      (try_lock_page w reg blkno).1 = false ∧
      (try_lock_page w reg blkno).2.1.pageState = w.pageState ∧
      (try_lock_page w reg blkno).2.2 = reg) ∧
    (try_lock_page w reg blkno).2.1.slots = w.slots := by
  cases hl : O_PAGE_STATE_IS_LOCKED (w.pageState blkno) with
  | true =>
      have hbit := (isLocked_iff _).mp hl
      have hor : w.pageState blkno ||| PAGE_STATE_LOCKED_FLAG = w.pageState blkno := by
        have h := or_locked_eq (w.pageState blkno)
        rw [O_PAGE_STATE_LOCK] at h
        rw [h, if_pos hbit]
      have hps : updFun w.pageState blkno
          (w.pageState blkno ||| PAGE_STATE_LOCKED_FLAG) = w.pageState := by
        funext j
        by_cases hj : j = blkno
        · subst hj; rw [updFun_same, hor]
        · exact updFun_other _ _ _ _ hj
      refine ⟨?_, ?_, ?_, ?_⟩
      · simp [try_lock_page, hl]
      · intro hfalse; exact absurd hfalse (by decide)
      · intro _
        refine ⟨by simp [try_lock_page, hl], ?_, by simp [try_lock_page, hl]⟩
        simp only [try_lock_page, hl, if_true]
        exact hps
      · simp [try_lock_page, hl]
  | false =>
      refine ⟨?_, ?_, ?_, ?_⟩
      · simp [try_lock_page, hl]
      · intro _
        simp [try_lock_page, hl]
      · intro htrue; exact absurd htrue (by decide)
      · simp [try_lock_page, hl]

/-- The state-word invariant of the spec: when the no-read bit is set, the
lock bit is also set. -/
def state_no_read_implies_locked (s : Nat) : Prop :=
  O_PAGE_STATE_READ_IS_BLOCKED s = true → O_PAGE_STATE_IS_LOCKED s = true

instance state_no_read_implies_locked_dec (s : Nat) :
    Decidable (state_no_read_implies_locked s) :=
  inferInstanceAs (Decidable (O_PAGE_STATE_READ_IS_BLOCKED s = true →
    O_PAGE_STATE_IS_LOCKED s = true))

theorem inv_iff (s : Nat) :
    state_no_read_implies_locked s ↔ (s / 2048 % 2 = 1 → s / 1024 % 2 = 1) := by
  unfold state_no_read_implies_locked
  simp only [readBlocked_iff, isLocked_iff]

theorem inv_enqueue_word (s p : Nat) (hp : p ≤ 1023)
    (hinv : state_no_read_implies_locked s) :
    state_no_read_implies_locked (1024 * (s / 1024) + p) := by
  rw [inv_iff] at *
  omega

theorem inv_lock_word (s : Nat) (_hinv : state_no_read_implies_locked s) :
    state_no_read_implies_locked (O_PAGE_STATE_LOCK s) := by
  rw [or_locked_eq]
  rw [inv_iff] at *
  by_cases h : s / 1024 % 2 = 1
  · simp [h]
  · simp only [h, if_false]
    omega

theorem inv_noread_word (s : Nat) (hl : O_PAGE_STATE_IS_LOCKED s = true) :
    state_no_read_implies_locked (s ||| PAGE_STATE_NO_READ_FLAG) := by
  have hbit := (isLocked_iff s).mp hl
  rw [or_noread_eq, inv_iff]
  by_cases h : s / 2048 % 2 = 1 <;> simp [h] <;> omega

theorem inv_unlock_word (s t : Nat) (hs : s < WORD) (ht : t ≤ 1023) :
    state_no_read_implies_locked (unlock_page_internal_new_state s t) := by
  rw [inv_iff, unlock_new_state_eq s t hs ht]
  by_cases h : s / 2048 % 2 = 1 <;> simp [h] <;> omega

/-- Claim C8: every state-word transition of the core — both branches of the
lock CAS, the reader enqueue CASes, try_lock's fetch-or, block_reads's
fetch-or on a locked page, and unlock's combined CAS — preserves the
invariant that the no-read bit implies the lock bit. -/
theorem C8_invariant_preserved (w : World) (reg : List MyLockedPage)
    (blkno pgprocnum oldState t : Nat)
    (hs : w.pageState blkno < WORD) (hp : pgprocnum ≤ 1023) (ht : t ≤ 1023)
    (hinv : state_no_read_implies_locked (w.pageState blkno)) :
    state_no_read_implies_locked
      ((lock_page_or_queue w blkno pgprocnum).1.pageState blkno) ∧
    state_no_read_implies_locked
      ((read_enabled_or_queue w blkno pgprocnum).1.pageState blkno) ∧
    state_no_read_implies_locked
      ((state_changed_or_queue w blkno pgprocnum oldState).1.pageState blkno) ∧
    state_no_read_implies_locked
      ((try_lock_page w reg blkno).2.1.pageState blkno) ∧
    (O_PAGE_STATE_IS_LOCKED (w.pageState blkno) = true →
      state_no_read_implies_locked
        ((page_block_reads w reg blkno).1.pageState blkno)) ∧
    state_no_read_implies_locked
      (unlock_page_internal_new_state (w.pageState blkno) t) := by
  have henq := inv_enqueue_word (w.pageState blkno) pgprocnum hp hinv
  have henqw : state_no_read_implies_locked
      ((w.pageState blkno &&& NOT_TAIL_MASK) ||| pgprocnum) := by
    rw [enqueue_word_eq _ _ hs hp]
    exact henq
  refine ⟨?_, ?_, ?_, ?_, ?_, inv_unlock_word _ t hs ht⟩
  · cases hl : O_PAGE_STATE_IS_LOCKED (w.pageState blkno) with
    | true => simpa [lock_page_or_queue, hl, updFun_same] using henqw
    | false => simpa [lock_page_or_queue, hl, updFun_same] using inv_lock_word _ hinv
  · cases hb : O_PAGE_STATE_READ_IS_BLOCKED (w.pageState blkno) with
    | true => simpa [read_enabled_or_queue, hb, updFun_same] using henqw
    | false => simpa [read_enabled_or_queue, hb] using hinv
  · by_cases hc : ((w.pageState blkno &&& PAGE_STATE_CHANGE_COUNT_MASK) !=
        (oldState &&& PAGE_STATE_CHANGE_COUNT_MASK)) = true
    · simpa [state_changed_or_queue, hc] using hinv
    · have hc' : ((w.pageState blkno &&& PAGE_STATE_CHANGE_COUNT_MASK) !=
          (oldState &&& PAGE_STATE_CHANGE_COUNT_MASK)) = false := by
        cases hq : ((w.pageState blkno &&& PAGE_STATE_CHANGE_COUNT_MASK) !=
            (oldState &&& PAGE_STATE_CHANGE_COUNT_MASK))
        · rfl
        · exact absurd hq hc
      simpa [state_changed_or_queue, hc', updFun_same] using henqw
  · have htl : state_no_read_implies_locked
        (w.pageState blkno ||| PAGE_STATE_LOCKED_FLAG) := by
      have h := inv_lock_word _ hinv
      rwa [O_PAGE_STATE_LOCK] at h
    cases hl : O_PAGE_STATE_IS_LOCKED (w.pageState blkno) with
    | true => simpa [try_lock_page, hl, updFun_same] using htl
    | false => simpa [try_lock_page, hl, updFun_same] using htl
  · intro hl
    simpa [page_block_reads, updFun_same] using inv_noread_word _ hl

/-- A concrete waiter slot used by witnesses. -/
def witnessSlot : LockerShmemState :=
  { next := 1023, blkno := 0, pageChangeCount := 0, reloids := 0,
    reservedUndoSize := 0, tupleFlags := 0, waitExclusive := false,
    pageWaiting := false, inserted := false, split := false }

/-- A concrete world whose every page word is locked and read-blocked. -/
def witnessWorld : World :=
  { pageState := fun _ => 31747, pageChangeCountHdr := fun _ => 0,
    slots := fun _ => witnessSlot }

/-- Witness for C8 at a concrete world holding a locked, read-blocked page. -/
theorem C8_invariant_preserved_witness :
    witnessWorld.pageState 2 < WORD ∧ (7 : Nat) ≤ 1023 ∧ (5 : Nat) ≤ 1023 ∧
    state_no_read_implies_locked (witnessWorld.pageState 2) ∧
    (state_no_read_implies_locked
        ((lock_page_or_queue witnessWorld 2 7).1.pageState 2) ∧
      state_no_read_implies_locked
        ((read_enabled_or_queue witnessWorld 2 7).1.pageState 2) ∧
      state_no_read_implies_locked
        ((state_changed_or_queue witnessWorld 2 7 0).1.pageState 2) ∧
      state_no_read_implies_locked
        ((try_lock_page witnessWorld [] 2).2.1.pageState 2) ∧
      (O_PAGE_STATE_IS_LOCKED (witnessWorld.pageState 2) = true →
        state_no_read_implies_locked
          ((page_block_reads witnessWorld [] 2).1.pageState 2)) ∧
      state_no_read_implies_locked
        (unlock_page_internal_new_state (witnessWorld.pageState 2) 5)) :=
  ⟨by decide, by decide, by decide, by decide,
   C8_invariant_preserved witnessWorld [] 2 7 0 5 (by decide) (by decide)
     (by decide) (by decide)⟩

/-! ### Claim C1: mark_incomplete_splits -/

/-- Concrete page-field state used by counterexamples and witnesses. -/
def witnessSplitPages : SplitPagesState :=
  { brokenSplitFlag := fun _ => false, rightLink := fun _ => 77,
    leftBlkno := fun _ => 3 }

/-- Counterexample to claim C1 as stated: with the single staged right
sibling 7, btree_mark_incomplete_splits issues its one call to
btree_split_mark_finished with use_lock = true, not use_lock = false as the
claim asserts. -/
theorem C1_counterexample :
    (btree_mark_incomplete_splits witnessSplitPages [7]).map
        (fun out => out.2.1.map (fun c => c.use_lock)) = some [true] ∧
    ¬ ((btree_mark_incomplete_splits witnessSplitPages [7]).map
        (fun out => out.2.1.map (fun c => c.use_lock)) = some [false]) := by
  constructor
  · rfl
  · decide

/-- Claim C1 (amended): btree_mark_incomplete_splits invokes
btree_split_mark_finished on each registered right-sibling block with
use_lock = true and success = false — use_lock = false together with
success = false would violate split_mark_finished's own assertion — marking
each listed right sibling broken, and afterwards the in-progress-split list
is empty. -/
theorem C1_mark_incomplete_splits (sp : SplitPagesState) (pages : List Nat) :
    ∃ sp2, btree_mark_incomplete_splits sp pages =
        some (sp2,
          pages.map (fun b => { rightBlkno := b, use_lock := true, success := false }),
          []) ∧
      (∀ x, sp2.brokenSplitFlag x = sp.brokenSplitFlag x ∨ sp2.brokenSplitFlag x = true) ∧
      (∀ b ∈ pages, sp2.brokenSplitFlag b = true) ∧
      sp2.rightLink = sp.rightLink ∧ sp2.leftBlkno = sp.leftBlkno := by
  induction pages generalizing sp with
  | nil => exact ⟨sp, rfl, fun x => Or.inl rfl, by simp, rfl, rfl⟩
  | cons b rest ih =>
      obtain ⟨sp2, heq, hmono, hall, hrl, hlb⟩ :=
        ih { sp with brokenSplitFlag := updFun sp.brokenSplitFlag b true }
      refine ⟨sp2, ?_, ?_, ?_, hrl, hlb⟩
      · simp only [btree_mark_incomplete_splits, btree_split_mark_finished]
        norm_num
        rw [heq]
      · intro x
        rcases hmono x with h | h
        · by_cases hx : x = b
          · subst hx
            right
            rw [h]
            simp [updFun]
          · left
            rw [h]
            simp [updFun, hx]
        · right; exact h
      · intro x hx
        rcases List.mem_cons.mp hx with hx | hx
        · subst hx
          rcases hmono x with h | h
          · rw [h]
            simp [updFun]
          · exact h
        · exact hall x hx

/-! ### Claim C4: release_all_page_locks -/

theorem del_single (e : MyLockedPage) :
    (my_locked_page_del [e] e.blkno).1 = [] := by
  simp [my_locked_page_del, List.findIdx?_cons]

theorem del_head_swap (e : MyLockedPage) (ys : List MyLockedPage)
    (z : MyLockedPage) :
    (my_locked_page_del (e :: (ys ++ [z])) e.blkno).1 = z :: ys := by
  have hfind : List.findIdx? (fun x => x.blkno == e.blkno) (e :: (ys ++ [z])) =
      some 0 := by
    simp [List.findIdx?_cons]
  unfold my_locked_page_del
  rw [hfind]
  have hlen : (e :: (ys ++ [z])).length - 1 = ys.length + 1 := by simp
  have hget : (e :: (ys ++ [z])).getD (ys.length + 1) dfltLockedPage = z := by
    rw [List.getD_cons_succ]
    simp [List.getD, List.getElem?_concat_length]
  simp only [hlen, hget, List.set_cons_zero]
  show (z :: (ys ++ [z])).dropLast = z :: ys
  rw [show z :: (ys ++ [z]) = (z :: ys) ++ [z] by simp, List.dropLast_concat]

theorem release_all_order (fuel : Nat) :
    ∀ l : List MyLockedPage, l.length ≤ fuel →
      release_all_page_locks fuel l =
        match l with
        | [] => []
        | e :: rest => e.blkno :: (rest.map (fun x => x.blkno)).reverse := by
  induction fuel with
  | zero =>
      intro l hl
      have : l = [] := by
        cases l
        · rfl
        · simp at hl
      subst this
      rfl
  | succ f ih =>
      intro l hl
      cases l with
      | nil => rfl
      | cons e rest =>
          rcases List.eq_nil_or_concat rest with hrest | ⟨ys, z, hrest⟩
          · subst hrest
            show e.blkno :: release_all_page_locks f (my_locked_page_del [e] e.blkno).1 = [e.blkno]
            rw [del_single]
            cases f <;> rfl
          · rw [List.concat_eq_append] at hrest
            subst hrest
            show e.blkno ::
                release_all_page_locks f (my_locked_page_del (e :: (ys ++ [z])) e.blkno).1 =
              e.blkno :: ((ys ++ [z]).map (fun x => x.blkno)).reverse
            rw [del_head_swap]
            have hlen : (z :: ys).length ≤ f := by
              simp at hl ⊢
              omega
            rw [ih (z :: ys) hlen]
            simp

/-- Counterexample to claim C4 as stated: with three held pages acquired in
the order 1, 2, 3, release_all_page_locks unlocks them in the order
1, 3, 2 — not from oldest to newest. -/
theorem C4_counterexample :
    release_all_page_locks 3
        [{ blkno := 1, state := 0 }, { blkno := 2, state := 0 },
         { blkno := 3, state := 0 }] = [1, 3, 2] ∧
    release_all_page_locks 3
        [{ blkno := 1, state := 0 }, { blkno := 2, state := 0 },
         { blkno := 3, state := 0 }] ≠ [1, 2, 3] := by
  constructor
  · rfl
  · decide

/-- Claim C4 (amended): for every non-empty locked-page registry,
release_all_page_locks unlocks every held page; the oldest acquisition is
released first, and the remaining pages are then released from the newest
acquisition to the oldest (each removal moves the newest remaining entry
into the freed slot). -/
theorem C4_release_all_page_locks (fuel : Nat) (e : MyLockedPage)
    (rest : List MyLockedPage) (hf : (e :: rest).length ≤ fuel) :
    release_all_page_locks fuel (e :: rest) =
      e.blkno :: (rest.map (fun x => x.blkno)).reverse ∧
    (release_all_page_locks fuel (e :: rest)).Perm
      ((e :: rest).map (fun x => x.blkno)) := by
  have h := release_all_order fuel (e :: rest) hf
  refine ⟨h, ?_⟩
  rw [h]
  show List.Perm (e.blkno :: (rest.map (fun x => x.blkno)).reverse)
    (e.blkno :: rest.map (fun x => x.blkno))
  exact List.Perm.cons _ (List.reverse_perm _)

/-- Witness for C4 with two held pages. -/
theorem C4_release_all_page_locks_witness :
    (((⟨4, 0⟩ : MyLockedPage) :: [(⟨9, 0⟩ : MyLockedPage)]).length ≤ 5) ∧
    (release_all_page_locks 5 ((⟨4, 0⟩ : MyLockedPage) :: [(⟨9, 0⟩ : MyLockedPage)]) =
        (⟨4, 0⟩ : MyLockedPage).blkno ::
          ([(⟨9, 0⟩ : MyLockedPage)].map (fun x => x.blkno)).reverse ∧
      (release_all_page_locks 5
          ((⟨4, 0⟩ : MyLockedPage) :: [(⟨9, 0⟩ : MyLockedPage)])).Perm
        (((⟨4, 0⟩ : MyLockedPage) :: [(⟨9, 0⟩ : MyLockedPage)]).map
          (fun x => x.blkno))) :=
  ⟨by decide, C4_release_all_page_locks 5 ⟨4, 0⟩ [⟨9, 0⟩] (by decide)⟩

/-! ### Claim C10: btree_page_split_location bounds -/

theorem split_loop_bounds (items : BTreeSplitItemsModel) (targetLocation : Nat)
    (ratioChooseLeft : Int → Int → Bool) :
    ∀ (fuel minC maxC : Nat) (ls rs : Int) (r : Nat),
      1 ≤ minC → maxC ≤ items.itemsCount - 1 → minC ≤ maxC →
      btree_page_split_location_loop items targetLocation ratioChooseLeft fuel
        minC maxC ls rs = some r →
      1 ≤ r ∧ r ≤ items.itemsCount - 1 := by
  intro fuel
  induction fuel with
  | zero => intro minC maxC ls rs r _ _ _ h; exact absurd h (by simp [btree_page_split_location_loop])
  | succ f ih =>
      intro minC maxC ls rs r h1 h2 h3 h
      rw [btree_page_split_location_loop] at h
      by_cases heq : minC = maxC
      · rw [if_pos heq] at h
        have : minC = r := by
          simpa using h
        omega
      · rw [if_neg heq] at h
        have hlt : minC < maxC := by omega
        split at h
        · dsimp only at h
          split at h
          · exact ih minC maxC _ _ r h1 h2 h3 h
          · exact ih (minC + 1) maxC _ _ r (by omega) h2 (by omega) h
        · dsimp only at h
          split at h
          · exact ih minC maxC _ _ r h1 h2 h3 h
          · exact ih minC (maxC - 1) _ _ r h1 (by omega) (by omega) h

/-- Claim C10: whenever btree_page_split_location returns, its result — the
number of items placed on the left page — is at least 1 and at most
itemsCount - 1, so with itemsCount at least 2 both sides of the split
receive at least one item.  Quantified over every ratio oracle, hence
covering the concrete float comparison. -/
theorem C10_split_location_bounds (items : BTreeSplitItemsModel)
    (targetLocation : Nat) (ratioChooseLeft : Int → Int → Bool) (fuel r : Nat)
    (hcount : 2 ≤ items.itemsCount)
    (hres : btree_page_split_location items targetLocation ratioChooseLeft fuel =
      some r) :
    1 ≤ r ∧ r ≤ items.itemsCount - 1 := by
  exact split_loop_bounds items targetLocation ratioChooseLeft fuel
    1 (items.itemsCount - 1) _ _ r (by omega) (by omega) (by omega) hres

/-- Concrete split-items input used by the C10 witness. -/
def witnessSplitItems : BTreeSplitItemsModel :=
  { itemSize := fun _ => 8, itemsCount := 3, maxKeyLen := 8, hikeySize := 8,
    hikeysEnd := 64 }

/-- Witness for C10: a three-item page split under an always-left oracle. -/
theorem C10_split_location_bounds_witness :
    2 ≤ witnessSplitItems.itemsCount ∧
    btree_page_split_location witnessSplitItems 0 (fun _ _ => true) 10 = some 2 ∧
    (1 ≤ 2 ∧ 2 ≤ witnessSplitItems.itemsCount - 1) :=
  ⟨by decide, by decide,
   C10_split_location_bounds witnessSplitItems 0 (fun _ _ => true) 10 2
     (by decide) (by decide)⟩

/-! ### Claim C9: get_waiters_with_tuples / wakeup_waiters_with_tuples -/

/-- The match predicate of get_waiters_with_tuples (page_state.c:703-706). -/
def tuple_waiter_matches (oids : Nat) (w : World) (blkno : Nat) (p : Nat) :
    Bool :=
  (w.slots p).waitExclusive && (w.slots p).blkno == blkno &&
    (w.slots p).pageChangeCount == w.pageChangeCountHdr blkno &&
    (w.slots p).reloids == oids

theorem get_waiters_loop_spec (oids : Nat) (w : World) (blkno : Nat) :
    ∀ (fuel cap head : Nat), 1 ≤ cap →
      get_waiters_with_tuples_loop oids w blkno cap fuel head =
        ((waiterChain w.slots fuel head).filter
          (tuple_waiter_matches oids w blkno)).take cap := by
  intro fuel
  induction fuel with
  | zero =>
      intro cap head _
      simp [get_waiters_with_tuples_loop, waiterChain]
  | succ f ih =>
      intro cap head hcap
      rw [get_waiters_with_tuples_loop, waiterChain]
      by_cases hh : head = PAGE_STATE_INVALID_PROCNO
      · simp [hh]
      · rw [if_neg hh, if_neg hh]
        by_cases hm : tuple_waiter_matches oids w blkno head = true
        · have hm' : ((w.slots head).waitExclusive && (w.slots head).blkno == blkno &&
              (w.slots head).pageChangeCount == w.pageChangeCountHdr blkno &&
              (w.slots head).reloids == oids) = true := hm
          rw [if_pos hm']
          rw [List.filter_cons_of_pos hm]
          by_cases hc : cap ≤ 1
          · have : cap = 1 := by omega
            subst this
            simp
          · rw [if_neg hc, ih (cap - 1) _ (by omega)]
            have : cap = (cap - 1) + 1 := by omega
            rw [this]
            simp
        · have hm' : ((w.slots head).waitExclusive && (w.slots head).blkno == blkno &&
              (w.slots head).pageChangeCount == w.pageChangeCountHdr blkno &&
              (w.slots head).reloids == oids) = false := by
            cases hq : ((w.slots head).waitExclusive && (w.slots head).blkno == blkno &&
                (w.slots head).pageChangeCount == w.pageChangeCountHdr blkno &&
                (w.slots head).reloids == oids)
            · rfl
            · exact absurd hq hm
          rw [if_neg (by simp [hm'])]
          rw [List.filter_cons_of_neg (by simp [tuple_waiter_matches] at hm' ⊢; exact hm')]
          exact ih cap _ hcap

theorem wakeup_slots_spec (procnums : List Nat) :
    ∀ (w : World) (p : Nat),
      (wakeup_waiters_with_tuples w procnums).1.slots p =
        if p ∈ procnums then { w.slots p with inserted := true } else w.slots p := by
  induction procnums with
  | nil => intro w p; simp [wakeup_waiters_with_tuples]
  | cons a rest ih =>
      intro w p
      have step : (wakeup_waiters_with_tuples w (a :: rest)).1 =
          (wakeup_waiters_with_tuples
            { w with slots := updSlot w.slots a (fun ls => { ls with inserted := true }) }
            rest).1 := rfl
      rw [step, ih]
      by_cases hp : p ∈ rest
      · rw [if_pos hp, if_pos (List.mem_cons_of_mem a hp)]
        by_cases hpa : p = a
        · subst hpa
          simp [updSlot]
        · simp [updSlot, hpa]
      · rw [if_neg hp]
        by_cases hpa : p = a
        · subst hpa
          rw [if_pos (List.mem_cons_self _ _)]
          simp [updSlot]
        · rw [if_neg (by simp [hpa, hp])]
          simp [updSlot, hpa]

/-- Claim C9: get_waiters_with_tuples returns exactly the slot indices on
the page's waiter chain, in chain order from the head, whose waitExclusive,
blkno, page change count and reloids match the page and tree, truncated at
BTREE_PAGE_MAX_SPLIT_ITEMS; wakeup_waiters_with_tuples sets inserted on
every listed slot, changes no other slot, and posts no semaphore itself. -/
theorem C9_waiters_with_tuples (oids : Nat) (w : World) (blkno fuel : Nat)
    (procnums : List Nat) :
    get_waiters_with_tuples oids w blkno fuel =
      ((waiterChain w.slots fuel
          (w.pageState blkno &&& PAGE_STATE_LIST_TAIL_MASK)).filter
        (tuple_waiter_matches oids w blkno)).take BTREE_PAGE_MAX_SPLIT_ITEMS ∧
    (∀ p ∈ procnums,
      ((wakeup_waiters_with_tuples w procnums).1.slots p).inserted = true) ∧
    (∀ q, q ∉ procnums →
      (wakeup_waiters_with_tuples w procnums).1.slots q = w.slots q) ∧
    (∀ p, ((wakeup_waiters_with_tuples w procnums).1.slots p).next = (w.slots p).next ∧
      ((wakeup_waiters_with_tuples w procnums).1.slots p).blkno = (w.slots p).blkno ∧
      ((wakeup_waiters_with_tuples w procnums).1.slots p).pageWaiting = (w.slots p).pageWaiting ∧
      ((wakeup_waiters_with_tuples w procnums).1.slots p).split = (w.slots p).split) ∧
    (wakeup_waiters_with_tuples w procnums).2 = [] := by
  refine ⟨?_, ?_, ?_, ?_, rfl⟩
  · exact get_waiters_loop_spec oids w blkno fuel BTREE_PAGE_MAX_SPLIT_ITEMS _
      (by decide)
  · intro p hp
    rw [wakeup_slots_spec procnums w p, if_pos hp]
  · intro q hq
    rw [wakeup_slots_spec procnums w q, if_neg hq]
  · intro p
    rw [wakeup_slots_spec procnums w p]
    by_cases hp : p ∈ procnums
    · simp [hp]
    · simp [hp]

/-! ### Claim C2: exclusive-waiter selection at unlock -/

theorem lastOf_concat (l : List Nat) (a : Nat) :
    ∀ ex, lastOf (l ++ [a]) ex = some a := by
  induction l with
  | nil => intro ex; rfl
  | cons b rest ih => intro ex; exact ih (some b)

theorem unlock_walk_spec (split : Bool) (slots : Nat → LockerShmemState) :
    ∀ (chain survivors wakeupTail : List Nat) (exclusive : Option Nat),
      unlock_walk split slots chain survivors wakeupTail exclusive =
        (survivors ++ chain.filter (fun p => !waiter_wakeup_eligible split (slots p)),
         (chain.filter (fun p => waiter_wakeup_eligible split (slots p))).reverse ++ wakeupTail,
         lastOf (chain.filter (fun p => !waiter_wakeup_eligible split (slots p))) exclusive) := by
  intro chain
  induction chain with
  | nil => intro survivors wakeupTail exclusive; simp [unlock_walk, lastOf]
  | cons p rest ih =>
      intro survivors wakeupTail exclusive
      by_cases hp : waiter_wakeup_eligible split (slots p) = true
      · rw [unlock_walk, if_pos hp, ih]
        simp [List.filter_cons, hp]
      · have hp' : waiter_wakeup_eligible split (slots p) = false := by
          cases hq : waiter_wakeup_eligible split (slots p)
          · rfl
          · exact absurd hq hp
        rw [unlock_walk, if_neg hp, ih]
        simp [List.filter_cons, hp', lastOf]

theorem unlock_select_spec (split : Bool) (slots : Nat → LockerShmemState)
    (chain ys : List Nat) (z : Nat)
    (hne : chain.filter (fun p => !waiter_wakeup_eligible split (slots p)) = ys ++ [z]) :
    unlock_select split slots chain =
      (ys, z :: (chain.filter (fun p => waiter_wakeup_eligible split (slots p))).reverse) := by
  rw [unlock_select, unlock_walk_spec]
  simp only [List.nil_append, List.append_nil, hne, lastOf_concat]
  simp

/-- Concrete slot table for the C2 counterexample: slot 0 is the chain head
(latest enqueued), slot 1 is behind it (earliest enqueued); both are
exclusive waiters with nothing making them tick/inserted/split eligible. -/
def ceSlots : Nat → LockerShmemState := fun p =>
  if p = 0 then { witnessSlot with next := 1, waitExclusive := true, pageWaiting := true }
  else { witnessSlot with next := 1023, waitExclusive := true, pageWaiting := true }

/-- Concrete world for the C2 counterexample: page 3 is locked with waiter
head 0 and no other state bits. -/
def ceWorld : World :=
  { pageState := fun _ => 1024, pageChangeCountHdr := fun _ => 0, slots := ceSlots }

/-- Counterexample to claim C2 as stated: releasing page 3 whose chain holds
the exclusive waiters [0, 1] (0 latest-enqueued, closest to the head) wakes
slot 1 — the earliest-enqueued one — not the latest-enqueued slot 0 the
claim designates. -/
theorem C2_counterexample :
    (waiterChain ceWorld.slots 5
        (ceWorld.pageState 3 &&& PAGE_STATE_LIST_TAIL_MASK)).filter
      (fun p => !waiter_wakeup_eligible false (ceWorld.slots p)) = [0, 1] ∧
    (unlock_page_internal ceWorld [] 3 false 5).wokenList = [1] ∧
    (unlock_page_internal ceWorld [] 3 false 5).wokenList ≠ [0] := by
  decide

/-- Claim C2 (amended): for every release of a page whose waiter chain
contains at least one exclusive waiter not eligible for a tick/inserted/
split wakeup, exactly one such waiter is woken, and it is the
earliest-enqueued one — the last such waiter along the chain walked from
the head, i.e. the one farthest from the head. -/
theorem C2_unlock_wakes_oldest_exclusive (w : World) (reg : List MyLockedPage)
    (blkno : Nat) (split : Bool) (fuel : Nat) (ys : List Nat) (z : Nat)
    (hne : (waiterChain w.slots fuel
        (w.pageState blkno &&& PAGE_STATE_LIST_TAIL_MASK)).filter
      (fun p => !waiter_wakeup_eligible split (w.slots p)) = ys ++ [z]) :
    (unlock_page_internal w reg blkno split fuel).wokenList =
      z :: ((waiterChain w.slots fuel
          (w.pageState blkno &&& PAGE_STATE_LIST_TAIL_MASK)).filter
        (fun p => waiter_wakeup_eligible split (w.slots p))).reverse ∧
    ((unlock_page_internal w reg blkno split fuel).wokenList).filter
      (fun p => !waiter_wakeup_eligible split (w.slots p)) = [z] := by
  have hsel := unlock_select_spec split w.slots
    (waiterChain w.slots fuel (w.pageState blkno &&& PAGE_STATE_LIST_TAIL_MASK))
    ys z hne
  have hwoken : (unlock_page_internal w reg blkno split fuel).wokenList =
      (unlock_select split w.slots
        (waiterChain w.slots fuel
          (w.pageState blkno &&& PAGE_STATE_LIST_TAIL_MASK))).2 := rfl
  have hsel2 : (unlock_select split w.slots
      (waiterChain w.slots fuel
        (w.pageState blkno &&& PAGE_STATE_LIST_TAIL_MASK))).2 =
      z :: ((waiterChain w.slots fuel
          (w.pageState blkno &&& PAGE_STATE_LIST_TAIL_MASK)).filter
        (fun p => waiter_wakeup_eligible split (w.slots p))).reverse := by
    rw [hsel]
  have hz : (!waiter_wakeup_eligible split (w.slots z)) = true := by
    have hmem : z ∈ (waiterChain w.slots fuel
        (w.pageState blkno &&& PAGE_STATE_LIST_TAIL_MASK)).filter
      (fun p => !waiter_wakeup_eligible split (w.slots p)) := by
      rw [hne]
      simp
    exact (List.mem_filter.mp hmem).2
  have hrest : ((waiterChain w.slots fuel
      (w.pageState blkno &&& PAGE_STATE_LIST_TAIL_MASK)).filter
    (fun p => waiter_wakeup_eligible split (w.slots p))).reverse.filter
      (fun p => !waiter_wakeup_eligible split (w.slots p)) = [] := by
    rw [List.filter_eq_nil_iff]
    intro a ha
    have ha2 := List.mem_reverse.mp ha
    have := (List.mem_filter.mp ha2).2
    simp [this]
  constructor
  · rw [hwoken, hsel2]
  · rw [hwoken, hsel2]
    simp only [List.filter_cons, hz, if_true]
    rw [hrest]

/-- Witness for C2 (amended) at the concrete two-waiter world. -/
theorem C2_unlock_wakes_oldest_exclusive_witness :
    ((waiterChain ceWorld.slots 5
        (ceWorld.pageState 3 &&& PAGE_STATE_LIST_TAIL_MASK)).filter
      (fun p => !waiter_wakeup_eligible false (ceWorld.slots p)) = [0] ++ [1]) ∧
    ((unlock_page_internal ceWorld [] 3 false 5).wokenList =
      1 :: ((waiterChain ceWorld.slots 5
          (ceWorld.pageState 3 &&& PAGE_STATE_LIST_TAIL_MASK)).filter
        (fun p => waiter_wakeup_eligible false (ceWorld.slots p))).reverse ∧
    ((unlock_page_internal ceWorld [] 3 false 5).wokenList).filter
      (fun p => !waiter_wakeup_eligible false (ceWorld.slots p)) = [1]) :=
  ⟨by decide, C2_unlock_wakes_oldest_exclusive ceWorld [] 3 false 5 [0] 1 (by decide)⟩

/-! ### Claim C6: split detection and right-link re-targeting -/

/-- Claim C6: during lock_page_with_tuple's combined primitive, when a fresh
page image is read (none was loaded, or its change count differs from the
live state) and that image is not rightmost with the tuple at or past its
high key: if the image's right-link holds a valid in-memory block number,
the primitive re-targets the caller's blkno and change count and the worker
slot's fields to that sibling and restarts; otherwise it returns
split-detected without touching any state, and lock_page_with_tuple then
returns false with upwards = true, holding no lock and leaving the
registry unchanged. -/
theorem C6_split_detect (env : Env) (pgprocnum fuel blkno cc : Nat)
    (img : Option PageImg) (w : World) (i : PageImg)
    (wake : Nat → LockerShmemState → LockerShmemState)
    (parkCount : Nat) (keySerialized upwards : Bool)
    (reg : List MyLockedPage) (r : PrimResult)
    (hneed : (match img with
      | none => true
      | some i0 => (w.pageState blkno &&& PAGE_STATE_CHANGE_COUNT_MASK) !=
          (i0.stateWord &&& PAGE_STATE_CHANGE_COUNT_MASK)) = true)
    (hread : env.readPage blkno cc = some i)
    (hsplit : (!i.rightmost && i.tupleGeHikey) = true) :
    (OInMemoryBlknoIsValid i.rightlinkBlkno = true →
      lock_page_or_queue_or_split_detect env pgprocnum (fuel + 1) blkno cc img w =
        lock_page_or_queue_or_split_detect env pgprocnum fuel
          i.rightlinkBlkno i.rightlinkChangeCount (some i)
          { w with slots := updSlot w.slots pgprocnum (fun ls =>
              { ls with blkno := i.rightlinkBlkno,
                        pageChangeCount := i.rightlinkChangeCount }) }) ∧
    (OInMemoryBlknoIsValid i.rightlinkBlkno = false →
      lock_page_or_queue_or_split_detect env pgprocnum (fuel + 1) blkno cc img w =
        some { result := .splitDetected, blkno := blkno, pageChangeCount := cc,
               prevState := w.pageState blkno, world := w, img := some i }) ∧
    ((lock_page_or_queue_or_split_detect env pgprocnum fuel blkno cc img
        (lpwt_publish env pgprocnum blkno cc keySerialized w) = some r) →
      r.result = .splitDetected →
      lock_page_with_tuple_loop env pgprocnum wake (fuel + 1) parkCount blkno cc
          keySerialized upwards img w reg =
        some { locked := false, upwards := true, blkno := r.blkno,
               pageChangeCount := r.pageChangeCount, world := r.world,
               registry := reg, giveupUndoCalls := 0 }) := by
  refine ⟨?_, ?_, ?_⟩
  · intro hvalid
    conv_lhs => rw [lock_page_or_queue_or_split_detect.eq_def]
    simp only [hneed, if_true, hread, hsplit, Bool.and_self, hvalid]
  · intro hinvalid
    conv_lhs => rw [lock_page_or_queue_or_split_detect.eq_def]
    simp only [hneed, if_true, hread, hsplit, hinvalid]
    simp
  · intro hprim hres
    rw [lock_page_with_tuple_loop]
    simp only [hprim]
    rw [if_pos hres]

/-! ### Claim C5: the woken-with-inserted path of lock_page_with_tuple -/

/-- Claim C5 (amended): when lock_page_with_tuple's parked waiter is woken
with the slot's inserted flag set, the call returns locked = false, leaves
the caller's upwards variable unchanged (the function only assigns upwards
on the split-detected path), performs no insert itself and takes no lock
(the registry is unchanged), relinquishes the reserved undo size exactly
once when the tree's undo type is not UndoLogNone (and not at all
otherwise), and clears the slot's blkno and inserted fields. -/
theorem C5_lock_with_tuple_inserted (env : Env) (pgprocnum : Nat)
    (wake : Nat → LockerShmemState → LockerShmemState)
    (fuel parkCount blkno cc : Nat) (keySerialized upwards : Bool)
    (img : Option PageImg) (w : World) (reg : List MyLockedPage) (r : PrimResult)
    (hprim : lock_page_or_queue_or_split_detect env pgprocnum fuel blkno cc img
      (lpwt_publish env pgprocnum blkno cc keySerialized w) = some r)
    (hq : r.result = .queued)
    (hlocked : O_PAGE_STATE_IS_LOCKED r.prevState = true)
    (hins : ((updSlot r.world.slots pgprocnum (wake parkCount)) pgprocnum).inserted = true) :
    ∃ w5 : World,
      lock_page_with_tuple_loop env pgprocnum wake (fuel + 1) parkCount blkno cc
          keySerialized upwards img w reg =
        some { locked := false, upwards := upwards, blkno := r.blkno,
               pageChangeCount := r.pageChangeCount, world := w5,
               registry := reg,
               giveupUndoCalls := if env.undoTypeIsNone then 0 else 1 } ∧
      (w5.slots pgprocnum).blkno = OInvalidInMemoryBlkno ∧
      (w5.slots pgprocnum).inserted = false := by
  rw [lock_page_with_tuple_loop]
  simp only [hprim]
  rw [if_neg (by simp [hq])]
  rw [if_neg (by simp [hq, hlocked])]
  rw [if_pos hins]
  refine ⟨_, rfl, ?_, ?_⟩
  · simp [updSlot]
  · simp [updSlot]

/-- Concrete image and environment for the C5 run: the target page image is
rightmost, so the primitive proceeds to the ordinary lock-or-enqueue. -/
def ce5Img : PageImg :=
  { stateWord := 2047, rightmost := true, tupleGeHikey := false,
    rightlinkBlkno := 0, rightlinkChangeCount := 0 }

def ce5Env : Env :=
  { readPage := fun _ _ => some ce5Img, undoTypeIsNone := false, oids := 5,
    reservedUndoSize := 16, tupleFlags := 0 }

/-- Concrete world for the C5 run: every page is locked with an empty waiter
chain (state 2047 = locked flag with invalid waiter head). -/
def ce5World : World :=
  { pageState := fun _ => 2047, pageChangeCountHdr := fun _ => 0,
    slots := fun _ => witnessSlot }

/-- The foreign writes a lock holder applies before waking a tuple waiter it
satisfied: set inserted, clear pageWaiting. -/
def ce5Wake : Nat → LockerShmemState → LockerShmemState :=
  fun _ ls => { ls with inserted := true, pageWaiting := false }

/-- Counterexample to claim C5 as stated: a call entered with the caller's
upwards variable holding true, whose waiter parks on the locked page 7 and
is woken with inserted set, returns locked = false but upwards = true — the
inserted path never writes upwards, so it is not false as the claim
asserts.  The reserved undo is still relinquished exactly once and the
registry stays empty. -/
theorem C5_counterexample :
    (lock_page_with_tuple ce5Env 2 ce5Wake 4 7 0 true ce5World []).map
      (fun res => (res.locked, res.upwards, res.giveupUndoCalls, res.registry)) =
      some (false, true, 1, ([] : List MyLockedPage)) ∧
    ¬ ((lock_page_with_tuple ce5Env 2 ce5Wake 4 7 0 true ce5World []).map
      (fun res => res.upwards) = some false) := by
  constructor
  · rfl
  · decide

/-- The primitive outcome of the C5 witness run. -/
def ce5R : PrimResult :=
  (lock_page_or_queue_or_split_detect ce5Env 2 3 7 0 none
      (lpwt_publish ce5Env 2 7 0 false ce5World)).getD
    { result := .queued, blkno := 0, pageChangeCount := 0, prevState := 0,
      world := ce5World, img := none }

/-- Witness for C5 (amended) at the concrete run. -/
theorem C5_lock_with_tuple_inserted_witness :
    (lock_page_or_queue_or_split_detect ce5Env 2 3 7 0 none
        (lpwt_publish ce5Env 2 7 0 false ce5World) = some ce5R) ∧
    ce5R.result = .queued ∧
    O_PAGE_STATE_IS_LOCKED ce5R.prevState = true ∧
    ((updSlot ce5R.world.slots 2 (ce5Wake 0)) 2).inserted = true ∧
    (∃ w5 : World,
      lock_page_with_tuple_loop ce5Env 2 ce5Wake (3 + 1) 0 7 0 false true none
          ce5World [] =
        some { locked := false, upwards := true, blkno := ce5R.blkno,
               pageChangeCount := ce5R.pageChangeCount, world := w5,
               registry := [],
               giveupUndoCalls := if ce5Env.undoTypeIsNone then 0 else 1 } ∧
      (w5.slots 2).blkno = OInvalidInMemoryBlkno ∧
      (w5.slots 2).inserted = false) :=
  ⟨rfl, rfl, rfl, rfl,
   C5_lock_with_tuple_inserted ce5Env 2 ce5Wake 3 0 7 0 false true none
     ce5World [] ce5R rfl rfl rfl rfl⟩

/-- Concrete image for the C6 witness: not rightmost, tuple at or past the
high key, valid in-memory right-link to block 9 at generation 4. -/
def ce6Img : PageImg :=
  { stateWord := 0, rightmost := false, tupleGeHikey := true,
    rightlinkBlkno := 9, rightlinkChangeCount := 4 }

def ce6Env : Env :=
  { readPage := fun _ _ => some ce6Img, undoTypeIsNone := true, oids := 5,
    reservedUndoSize := 0, tupleFlags := 0 }

/-- An arbitrary split-detected primitive outcome for the C6 witness. -/
def ce6R : PrimResult :=
  { result := .splitDetected, blkno := 0, pageChangeCount := 0, prevState := 0,
    world := ceWorld, img := none }

/-- Witness for C6 at a concrete split image with a valid right-link. -/
theorem C6_split_detect_witness :
    ((match (none : Option PageImg) with
      | none => true
      | some i0 => (ceWorld.pageState 7 &&& PAGE_STATE_CHANGE_COUNT_MASK) !=
          (i0.stateWord &&& PAGE_STATE_CHANGE_COUNT_MASK)) = true) ∧
    ce6Env.readPage 7 0 = some ce6Img ∧
    ((!ce6Img.rightmost && ce6Img.tupleGeHikey) = true) ∧
    ((OInMemoryBlknoIsValid ce6Img.rightlinkBlkno = true →
      lock_page_or_queue_or_split_detect ce6Env 2 (5 + 1) 7 0 none ceWorld =
        lock_page_or_queue_or_split_detect ce6Env 2 5
          ce6Img.rightlinkBlkno ce6Img.rightlinkChangeCount (some ce6Img)
          { ceWorld with slots := updSlot ceWorld.slots 2 (fun ls =>
              { ls with blkno := ce6Img.rightlinkBlkno,
                        pageChangeCount := ce6Img.rightlinkChangeCount }) }) ∧
    (OInMemoryBlknoIsValid ce6Img.rightlinkBlkno = false →
      lock_page_or_queue_or_split_detect ce6Env 2 (5 + 1) 7 0 none ceWorld =
        some { result := .splitDetected, blkno := 7, pageChangeCount := 0,
               prevState := ceWorld.pageState 7, world := ceWorld,
               img := some ce6Img }) ∧
    ((lock_page_or_queue_or_split_detect ce6Env 2 5 7 0 none
        (lpwt_publish ce6Env 2 7 0 false ceWorld) = some ce6R) →
      ce6R.result = .splitDetected →
      lock_page_with_tuple_loop ce6Env 2 ce5Wake (5 + 1) 0 7 0 false false none
          ceWorld [] =
        some { locked := false, upwards := true, blkno := ce6R.blkno,
               pageChangeCount := ce6R.pageChangeCount, world := ce6R.world,
               registry := [], giveupUndoCalls := 0 })) :=
  ⟨rfl, rfl, by decide,
   C6_split_detect ce6Env 2 5 7 0 none ceWorld ce6Img ce5Wake 0 false false
     [] ce6R rfl rfl (by decide)⟩

end OrioleDB
